import Mathlib

/-!
# paczkobot: the /track command

A shallow embedding of `TrackCommand.Execute` (track_command.go) and the
properties of its fan-out, aggregation loop, status rendering and detail
reporting.

Modelling conventions

* Go strings are Lean strings; `sort.Strings` orders them byte-wise, which for
  UTF-8 text is the code-point order of `String`.
* A Go `error` is kept as its message text together with the answer of
  `errors.Is(err, commonerrors.NotFoundError)`.
* A `*commondata.TrackingData` that may be nil is an `Option TrackingData`.
* `t.App.Bot.Send` is an external transport: the answer to the k-th call of an
  invocation is given by a function of k, and every call is recorded together
  with its answer.
* The goroutines only communicate through `replyChan`; the order in which
  their replies enter the channel is an input (`arrival`).
-/

namespace Paczkobot

/-! ## Data model -/

/-- Civil fields of a `time.Time`, the part `Format("2006-01-02 15:04")` reads. -/
structure Datetime where
  year : Nat
  month : Nat
  day : Nat
  hour : Nat
  minute : Nat
deriving DecidableEq

/-- One waypoint, `commondata.TrackingStep` (the fields used by the command). -/
structure TrackingStep where
  Datetime : Datetime
  Message : String
  Location : String
deriving DecidableEq

/-- Result of one backend, `commondata.TrackingData` (the fields used by the command). -/
structure TrackingData where
  ShipmentNumber : String
  ProviderName : String
  Destination : String
  TrackingSteps : List TrackingStep
deriving DecidableEq

/-- A non-nil Go `error`: the text of `Error()` and whether
`errors.Is(err, commonerrors.NotFoundError)` holds for it. -/
structure GoError where
  Error : String
  isNotFound : Bool
deriving DecidableEq

/-- The two methods of `providers.Provider` that the command calls. -/
structure Provider where
  GetName : String
  MatchesNumber : String → Bool

/-- The struct `providerReply`: both pointer fields may be nil. -/
structure providerReply where
  provider : Provider
  data : Option TrackingData
  err : Option GoError

/-- What `TrackingService.InvokeProviderAndNotifyFollowers` hands back:
a possibly nil result and a possibly nil error. -/
abbrev QueryService := Provider → String → Option TrackingData × Option GoError

/-- The parts of `CommandArguments` read by the command: the positional
arguments, `update.Message.Chat.ID` and `update.Message.MessageID`. -/
structure CommandArguments where
  Arguments : List String
  ChatID : Int
  MessageID : Int
deriving DecidableEq

/-- Inline keyboard with a single button: its label and its callback data. -/
structure InlineButton where
  text : String
  callbackData : String
deriving DecidableEq

/-- A request given to `Bot.Send`. `NewMessage` carries `ReplyToMessageID`
(0 when unset) and the optional reply markup; both requests use parse mode HTML. -/
inductive BotCall where
  | NewMessage (chatID : Int) (text : String) (replyToMessageID : Int)
      (replyMarkup : Option InlineButton)
  | NewEditMessageText (chatID : Int) (messageID : Int) (text : String)
deriving DecidableEq

/-- Answer of `Bot.Send`: the id of the message, or an error. -/
inductive BotReply where
  | ok (MessageID : Int)
  | fail (err : String)
deriving DecidableEq

/-- The transport as seen by one invocation: the answer to its k-th call. -/
abbrev Transport := Nat → BotReply

/-! ## The Go map `statuses` -/

/-- A `map[string]string` as an association list without repeated keys. -/
abbrev StatusMap := List (String × String)

/-- Assignment `m[k] = v`: overwrite the entry of `k`, or add one. -/
def mapSet : StatusMap → String → String → StatusMap
  | [], k, v => [(k, v)]
  | (k', v') :: rest, k, v =>
    if k' = k then (k, v) :: rest else (k', v') :: mapSet rest k v

/-- Lookup `m[k]`: the zero value `""` when the key is absent. -/
def mapGet : StatusMap → String → String
  | [], _ => ""
  | (k', v') :: rest, k => if k' = k then v' else mapGet rest k

/-- Keys of the map. Go iterates them in an unspecified order; the only use of
the keys sorts them first, and the sorted list is the same for every order. -/
def mapKeys (m : StatusMap) : List String := m.map Prod.fst

/-! ## Library functions -/

/-- Replacement of one character by `html.EscapeString`. -/
def escapeChar (c : Char) : String :=
  if c = '&' then "&amp;"
  else if c = Char.ofNat 39 then "&#39;"
  else if c = '<' then "&lt;"
  else if c = '>' then "&gt;"
  else if c = '"' then "&#34;"
  else String.singleton c

/-- Go `html.EscapeString`. -/
def htmlEscape (s : String) : String :=
  s.data.foldr (fun c acc => escapeChar c ++ acc) ""

/-- Go `sort.Strings`: ascending order of the strings. -/
def sortStrings (l : List String) : List String :=
  l.insertionSort (fun a b => a ≤ b)

/-- Decimal digits of `n`, left-padded with zeros to `width`. -/
def padZero (width n : Nat) : String :=
  String.mk (List.replicate (width - (Nat.repr n).length) '0') ++ Nat.repr n

/-- Go `Time.Format("2006-01-02 15:04")`. -/
def Datetime.Format (t : Datetime) : String :=
  padZero 4 t.year ++ "-" ++ padZero 2 t.month ++ "-" ++ padZero 2 t.day ++ " " ++
    padZero 2 t.hour ++ ":" ++ padZero 2 t.minute

/-! ## TrackCommand.Execute -/

/-- Usage error text (line 38). -/
def usageError : String := "usage: /track &lt;shipmentNumber&gt;"

/-- No-provider error text (line 49). -/
def noProviderError : String := "no tracking providers support this tracking number"

/-- Placeholder written for every selected backend (line 55). -/
def checking : String := "⌛ checking..."

/-- Candidate selection (lines 41-46). -/
def providersToCheck (AllProviders : List Provider) (shipmentNumber : String) : List Provider :=
  AllProviders.filter (fun provider => provider.MatchesNumber shipmentNumber)

/-- Body of one producer goroutine (lines 56-69): the reply it sends on `replyChan`. -/
def producer (svc : QueryService) (shipmentNumber : String) (p : Provider) : providerReply :=
  match svc p shipmentNumber with
  | (_, some err) => { provider := p, data := none, err := some err }
  | (d, none) => { provider := p, data := d, err := none }

/-- Pre-population of `statuses` by the launch loop (lines 52-55). -/
def initStatuses (selected : List Provider) : StatusMap :=
  selected.foldl (fun m p => mapSet m p.GetName checking) []

/-- Mutable state of one invocation after the launch loop: the variables
`statuses` and `msgIdToEdit`, and two ghost fields, the record of the calls made
to `Bot.Send` with their answers and the number of replies received so far. -/
structure ExecState where
  statuses : StatusMap
  msgIdToEdit : Int
  calls : List (BotCall × BotReply)
  consumed : Nat

/-- Text built by `sendStatuses` (lines 73-82). -/
def statusText (statuses : StatusMap) : String :=
  (sortStrings (mapKeys statuses)).foldl
    (fun msgText n => msgText ++ (n ++ ": <b>" ++ htmlEscape (mapGet statuses n) ++ "</b>\n")) ""

/-- The closure `sendStatuses` (lines 72-103): edit when `msgIdToEdit` is set,
otherwise send a new message and remember its id when the send succeeds. -/
def sendStatuses (bot : Transport) (args : CommandArguments) (st : ExecState) : ExecState :=
  let msgText := statusText st.statuses
  let res := bot st.calls.length
  if st.msgIdToEdit ≠ 0 then
    { st with calls := st.calls ++ [(BotCall.NewEditMessageText args.ChatID st.msgIdToEdit msgText, res)] }
  else
    let call := BotCall.NewMessage args.ChatID msgText 0 none
    match res with
    | BotReply.fail _ => { st with calls := st.calls ++ [(call, res)] }
    | BotReply.ok id => { st with calls := st.calls ++ [(call, res)], msgIdToEdit := id }

/-- Short status of a successful reply (lines 115-119). -/
def successStatus (data : TrackingData) : String :=
  let status :=
    if h : 0 < data.TrackingSteps.length then
      (data.TrackingSteps.get ⟨data.TrackingSteps.length - 1, by omega⟩).Message
    else ""
  "🔎 " ++ status

/-- One iteration of the loop over the steps (lines 125-136). -/
def stepBody (len : Nat) (i : Nat) (ts : TrackingStep) (longTracking : String) : String :=
  let shouldBold : Bool := decide ((i : Int) = (len : Int) - 1)
  let s1 := if shouldBold then longTracking ++ "<b>" else longTracking
  let s2 := s1 ++ (ts.Datetime.Format ++ " " ++ ts.Message)
  let s3 := if ts.Location ≠ "" then s2 ++ (" 📌 " ++ ts.Location) else s2
  let s4 := s3 ++ "\n"
  if shouldBold then s4 ++ "</b>" else s4

/-- The loop `for i, ts := range rep.data.TrackingSteps` from index `i` on. -/
def stepsLoop (len : Nat) : Nat → List TrackingStep → String → String
  | _, [], longTracking => longTracking
  | i, ts :: rest, longTracking => stepsLoop len (i + 1) rest (stepBody len i ts longTracking)

/-- Construction of `longTracking` (lines 122-141). -/
def longTracking (data : TrackingData) : String :=
  let s0 := "Detailed tracking for package <i>" ++ data.ShipmentNumber ++
    "</i> provided by <b>" ++ data.ProviderName ++ "</b>:\n"
  let s1 := stepsLoop data.TrackingSteps.length 0 data.TrackingSteps s0
  if data.Destination ≠ "" then s1 ++ ("\nThe package is headed to " ++ data.Destination) else s1

/-- The detail message request (lines 143-150). -/
def detailCall (args : CommandArguments) (data : TrackingData) : BotCall :=
  BotCall.NewMessage args.ChatID (longTracking data) args.MessageID
    (some { text := "🚶 Follow this package", callbackData := "/follow " ++ data.ShipmentNumber })

/-- Body of `for rep := range replyChan` (lines 106-152). The result is `none`
when the success branch dereferences a nil `rep.data` (run-time panic at line 116). -/
def handleReply (bot : Transport) (args : CommandArguments) (st : ExecState)
    (rep : providerReply) : Option ExecState :=
  match rep.err with
  | some err =>
    let status := if err.isNotFound then "🔳 Not found" else "⚠️ Error: " ++ err.Error
    let st1 := { st with statuses := mapSet st.statuses rep.provider.GetName status,
                         consumed := st.consumed + 1 }
    some (sendStatuses bot args st1)
  | none =>
    match rep.data with
    | none => none
    | some data =>
      let st1 := { st with statuses := mapSet st.statuses rep.provider.GetName (successStatus data),
                           consumed := st.consumed + 1 }
      let st2 := sendStatuses bot args st1
      some { st2 with calls := st2.calls ++ [(detailCall args data, bot st2.calls.length)] }

/-- How an invocation ends: it returns (with an optional error), it panics, or
it stays blocked in a receive on `replyChan` for ever. -/
inductive Outcome where
  | returned (err : Option String)
  | panicked
  | blocked
deriving DecidableEq

/-- How the loop `for rep := range replyChan` ends. -/
inductive LoopEnd where
  | exited
  | panicked
  | blocked
deriving DecidableEq

/-- The loop `for rep := range replyChan` (lines 105-153) run against the replies
in the order they entered the channel, all producers having sent. `closed` tells
whether `close(replyChan)` was called: a receive on an empty channel ends the
loop when the channel is closed and blocks otherwise, and with no producer left
it blocks for ever. -/
def rangeLoop (bot : Transport) (args : CommandArguments) (closed : Bool) :
    ExecState → List providerReply → ExecState × LoopEnd
  | st, [] => (st, if closed then LoopEnd.exited else LoopEnd.blocked)
  | st, rep :: rest =>
    match handleReply bot args st rep with
    | none => (st, LoopEnd.panicked)
    | some st' => rangeLoop bot args closed st' rest

/-- What follows the loop: `return nil` (line 155) once the loop has exited. -/
def afterLoop : LoopEnd → Outcome
  | LoopEnd.exited => Outcome.returned none
  | LoopEnd.panicked => Outcome.panicked
  | LoopEnd.blocked => Outcome.blocked

/-- Everything observable about one invocation: how it ends, the producers it
launched (each one calls the query service once) and its last state. -/
structure Run where
  outcome : Outcome
  launched : List Provider
  final : ExecState

/-- State of an invocation that has done nothing yet. -/
def ExecState.empty : ExecState :=
  { statuses := [], msgIdToEdit := 0, calls := [], consumed := 0 }

/-- State after the launch loop and before the first render (lines 52-71). -/
def startState (selected : List Provider) : ExecState :=
  { statuses := initStatuses selected, msgIdToEdit := 0, calls := [], consumed := 0 }

/-- The method `TrackCommand.Execute` (lines 35-156). `arrival` lists the launched
producers in the order in which their replies enter `replyChan`; each launched
producer calls the query service once. Nothing in the method closes `replyChan`,
so the loop runs with `closed = false`. -/
def Execute (AllProviders : List Provider) (svc : QueryService) (bot : Transport)
    (args : CommandArguments) (arrival : List Provider) : Run :=
  match args.Arguments with
  | [] => { outcome := Outcome.returned (some usageError), launched := [], final := ExecState.empty }
  | shipmentNumber :: _ =>
    let selected := providersToCheck AllProviders shipmentNumber
    if selected.length = 0 then
      { outcome := Outcome.returned (some noProviderError), launched := [],
        final := ExecState.empty }
    else
      let st0 := sendStatuses bot args (startState selected)
      let res := rangeLoop bot args false st0 (arrival.map (producer svc shipmentNumber))
      { outcome := afterLoop res.2, launched := selected, final := res.1 }

/-! ## Vocabulary of the statements -/

/-- Concatenation of a list of text blocks, in order. -/
def joinLines (l : List String) : String := l.foldr (fun s acc => s ++ acc) ""

/-- The text carried by a request. -/
def BotCall.text : BotCall → String
  | BotCall.NewMessage _ text _ _ => text
  | BotCall.NewEditMessageText _ _ text => text

/-- A detail message is a new message that carries the follow button. -/
def isDetailCall : BotCall → Bool
  | BotCall.NewMessage _ _ _ (some _) => true
  | _ => false

/-- The detail requests among the recorded calls, in order. -/
def detailCalls (calls : List (BotCall × BotReply)) : List BotCall :=
  (calls.map Prod.fst).filter isDetailCall

/-- The detail message owed to a reply: none for a reply with an error, the
detail request of its result for a successful reply. -/
def detailOwed (args : CommandArguments) (rep : providerReply) : Option BotCall :=
  match rep.err with
  | some _ => none
  | none => rep.data.map (detailCall args)

/-- A successful reply is one without an error. -/
def isSuccess (rep : providerReply) : Bool := rep.err.isNone

/-- One line of the detail text: formatted time, a space, the message, the
location marker when the location is not empty, and a line break. -/
def stepLine (ts : TrackingStep) : String :=
  ts.Datetime.Format ++ " " ++ ts.Message ++
    (if ts.Location = "" then "" else " 📌 " ++ ts.Location) ++ "\n"

/-- Line number `i` of a detail text with `len` steps: emphasized when last. -/
def detailLine (len : Nat) (it : Nat × TrackingStep) : String :=
  if it.1 + 1 = len then "<b>" ++ stepLine it.2 ++ "</b>" else stepLine it.2

/-- The status renders among the recorded calls (all calls but the details), in order. -/
def statusCalls (calls : List (BotCall × BotReply)) : List (BotCall × BotReply) :=
  calls.filter (fun c => !isDetailCall c.1)

/-- A new-message send of a status text: a new message without reply markup. -/
def isStatusNew : BotCall → Bool
  | BotCall.NewMessage _ _ _ none => true
  | _ => false

/-- Value of `msgIdToEdit` right after a new-message send answered by `r`:
the id of the created message, 0 when the send failed. -/
def handleAfter : BotReply → Int
  | BotReply.ok id => id
  | BotReply.fail _ => 0

/-- Shape of the status renders recorded in a state: only new-message sends
that left no handle while `msgIdToEdit` is 0; otherwise such sends, then the
send that created message `msgIdToEdit`, then only edits of that message. -/
def StatusShape (args : CommandArguments) (st : ExecState) : Prop :=
  (st.msgIdToEdit = 0 ∧
    ∀ x ∈ statusCalls st.calls, isStatusNew x.1 = true ∧ handleAfter x.2 = 0) ∨
  (st.msgIdToEdit ≠ 0 ∧ ∃ pre c post, statusCalls st.calls = pre ++ c :: post ∧
    (∀ x ∈ pre, isStatusNew x.1 = true ∧ handleAfter x.2 = 0) ∧
    isStatusNew c.1 = true ∧ handleAfter c.2 = st.msgIdToEdit ∧
    ∀ x ∈ post, ∃ text, x.1 = BotCall.NewEditMessageText args.ChatID st.msgIdToEdit text)

/-! ## Sample inputs -/

/-- A backend named A that recognizes every number. -/
def backendA : Provider := { GetName := "A", MatchesNumber := fun _ => true }

/-- A backend named B that recognizes every number. -/
def backendB : Provider := { GetName := "B", MatchesNumber := fun _ => true }

/-- A second backend that also calls itself A; it recognizes the number 123. -/
def backendTwin : Provider := { GetName := "A", MatchesNumber := fun n => n = "123" }

/-- A backend that recognizes no number. -/
def backendNever : Provider := { GetName := "N", MatchesNumber := fun _ => false }

/-- A result with two waypoints and no destination. -/
def sampleData : TrackingData :=
  { ShipmentNumber := "123", ProviderName := "A", Destination := "",
    TrackingSteps :=
      [ { Datetime := { year := 2024, month := 1, day := 2, hour := 10, minute := 0 },
          Message := "left depot", Location := "" },
        { Datetime := { year := 2024, month := 1, day := 2, hour := 12, minute := 0 },
          Message := "arrived hub", Location := "CityX" } ] }

/-- A query service: A answers with `sampleData`, every other backend with not-found. -/
def sampleService : QueryService := fun p _ =>
  if p.GetName = "A" then (some sampleData, none)
  else (none, some { Error := "not found", isNotFound := true })

/-- A query service that answers every query with a nil result and a nil error. -/
def nilService : QueryService := fun _ _ => (none, none)

/-- A transport on which every call succeeds; call k creates message 100 + k. -/
def goodBot : Transport := fun k => BotReply.ok (100 + (k : Int))

/-- A transport whose first call fails and whose later calls succeed. -/
def flakyBot : Transport := fun k =>
  if k = 0 then BotReply.fail "connection reset" else BotReply.ok (100 + (k : Int))

/-- The invocation `/track 123` in chat 7, sent as message 9. -/
def sampleArgs : CommandArguments := { Arguments := ["123"], ChatID := 7, MessageID := 9 }

/-! ## The map `statuses` -/

theorem mapGet_mapSet_same (m : StatusMap) (k v : String) : mapGet (mapSet m k v) k = v := by
  induction m with
  | nil => simp [mapSet, mapGet]
  | cons kv rest ih =>
    obtain ⟨k', v'⟩ := kv
    by_cases h : k' = k
    · simp [mapSet, mapGet, h]
    · simp [mapSet, mapGet, h, ih]

theorem mapGet_mapSet_other (m : StatusMap) (k v k2 : String) (h : k2 ≠ k) :
    mapGet (mapSet m k v) k2 = mapGet m k2 := by
  induction m with
  | nil => simp [mapSet, mapGet, Ne.symm h]
  | cons kv rest ih =>
    obtain ⟨k', v'⟩ := kv
    by_cases h1 : k' = k
    · subst h1
      simp [mapSet, mapGet, Ne.symm h]
    · by_cases h2 : k' = k2
      · subst h2
        simp [mapSet, mapGet, h1]
      · simp [mapSet, mapGet, h1, h2, ih]

theorem mapKeys_mapSet_of_mem (m : StatusMap) (k v : String) (h : k ∈ mapKeys m) :
    mapKeys (mapSet m k v) = mapKeys m := by
  induction m with
  | nil => simp [mapKeys] at h
  | cons kv rest ih =>
    obtain ⟨k', v'⟩ := kv
    by_cases h1 : k' = k
    · simp [mapSet, mapKeys, h1]
    · have hk : k ∈ mapKeys rest := by
        simp only [mapKeys, List.map_cons, List.mem_cons] at h
        rcases h with h | h
        · exact absurd h.symm h1
        · exact h
      have := ih hk
      simp only [mapKeys] at this
      simp [mapSet, mapKeys, h1, this]

theorem mapKeys_mapSet_of_not_mem (m : StatusMap) (k v : String) (h : k ∉ mapKeys m) :
    mapKeys (mapSet m k v) = mapKeys m ++ [k] := by
  induction m with
  | nil => simp [mapSet, mapKeys]
  | cons kv rest ih =>
    obtain ⟨k', v'⟩ := kv
    simp only [mapKeys, List.map_cons, List.mem_cons, not_or] at h
    have h1 : ¬ k' = k := fun e => h.1 e.symm
    have := ih h.2
    simp only [mapKeys] at this
    simp [mapSet, mapKeys, h1, this]

theorem mem_mapKeys_mapSet (m : StatusMap) (k v k2 : String) :
    k2 ∈ mapKeys (mapSet m k v) ↔ k2 = k ∨ k2 ∈ mapKeys m := by
  by_cases h : k ∈ mapKeys m
  · rw [mapKeys_mapSet_of_mem m k v h]
    constructor
    · intro h2; exact Or.inr h2
    · rintro (h2 | h2)
      · rw [h2]; exact h
      · exact h2
  · rw [mapKeys_mapSet_of_not_mem m k v h]
    simp [or_comm]

theorem mapKeys_foldl_checking (sel : List Provider) (m : StatusMap)
    (h : (mapKeys m ++ sel.map Provider.GetName).Nodup) :
    mapKeys (sel.foldl (fun m p => mapSet m p.GetName checking) m)
      = mapKeys m ++ sel.map Provider.GetName := by
  induction sel generalizing m with
  | nil => simp
  | cons p rest ih =>
    have hp : p.GetName ∉ mapKeys m := by
      intro hmem
      have := List.nodup_append.mp h
      exact this.2.2 hmem (by simp)
    have hk := mapKeys_mapSet_of_not_mem m p.GetName checking hp
    have h2 : (mapKeys (mapSet m p.GetName checking) ++ rest.map Provider.GetName).Nodup := by
      rw [hk]
      simpa using h
    have := ih (mapSet m p.GetName checking) h2
    simp only [List.foldl_cons, List.map_cons]
    rw [this, hk]
    simp

theorem mapGet_foldl_checking (sel : List Provider) (m : StatusMap)
    (hm : ∀ k ∈ mapKeys m, mapGet m k = checking) :
    ∀ k ∈ mapKeys (sel.foldl (fun m p => mapSet m p.GetName checking) m),
      mapGet (sel.foldl (fun m p => mapSet m p.GetName checking) m) k = checking := by
  induction sel generalizing m with
  | nil => simpa using hm
  | cons p rest ih =>
    simp only [List.foldl_cons]
    apply ih
    intro k hk
    by_cases h : k = p.GetName
    · rw [h, mapGet_mapSet_same]
    · rw [mapGet_mapSet_other _ _ _ _ h]
      rcases (mem_mapKeys_mapSet _ _ _ _).mp hk with h2 | h2
      · exact absurd h2 h
      · exact hm k h2

theorem mapKeys_mapSet_nodup (m : StatusMap) (k v : String) (h : (mapKeys m).Nodup) :
    (mapKeys (mapSet m k v)).Nodup := by
  by_cases hk : k ∈ mapKeys m
  · rw [mapKeys_mapSet_of_mem m k v hk]
    exact h
  · rw [mapKeys_mapSet_of_not_mem m k v hk]
    exact List.nodup_append.mpr ⟨h, List.nodup_singleton k, by simpa using hk⟩

theorem mapKeys_foldl_nodup (sel : List Provider) (m : StatusMap) (h : (mapKeys m).Nodup) :
    (mapKeys (sel.foldl (fun m p => mapSet m p.GetName checking) m)).Nodup := by
  induction sel generalizing m with
  | nil => simpa using h
  | cons p rest ih =>
    simp only [List.foldl_cons]
    exact ih _ (mapKeys_mapSet_nodup m p.GetName checking h)

theorem mem_mapKeys_foldl (sel : List Provider) (m : StatusMap) (k : String) :
    k ∈ mapKeys (sel.foldl (fun m p => mapSet m p.GetName checking) m)
      ↔ k ∈ mapKeys m ∨ k ∈ sel.map Provider.GetName := by
  induction sel generalizing m with
  | nil => simp
  | cons p rest ih =>
    simp only [List.foldl_cons, List.map_cons, List.mem_cons]
    rw [ih, mem_mapKeys_mapSet]
    constructor
    · rintro ((h | h) | h)
      · exact Or.inr (Or.inl h)
      · exact Or.inl h
      · exact Or.inr (Or.inr h)
    · rintro (h | h | h)
      · exact Or.inl (Or.inr h)
      · exact Or.inl (Or.inl h)
      · exact Or.inr h

theorem mapKeys_initStatuses_nodup (selected : List Provider) :
    (mapKeys (initStatuses selected)).Nodup :=
  mapKeys_foldl_nodup selected [] (by simp [mapKeys])

theorem mem_mapKeys_initStatuses (selected : List Provider) (k : String) :
    k ∈ mapKeys (initStatuses selected) ↔ k ∈ selected.map Provider.GetName := by
  have := mem_mapKeys_foldl selected [] k
  simpa [initStatuses, mapKeys] using this

theorem mapKeys_initStatuses (selected : List Provider)
    (h : (selected.map Provider.GetName).Nodup) :
    mapKeys (initStatuses selected) = selected.map Provider.GetName := by
  have := mapKeys_foldl_checking selected [] (by simpa [mapKeys] using h)
  simpa [initStatuses, mapKeys] using this

theorem mapGet_initStatuses (selected : List Provider) (k : String)
    (hk : k ∈ mapKeys (initStatuses selected)) :
    mapGet (initStatuses selected) k = checking :=
  mapGet_foldl_checking selected [] (by simp [mapKeys]) k hk

/-! ## One reply -/

theorem sendStatuses_statuses (bot : Transport) (args : CommandArguments) (st : ExecState) :
    (sendStatuses bot args st).statuses = st.statuses := by
  unfold sendStatuses
  by_cases h : st.msgIdToEdit ≠ 0
  · simp [h]
  · simp only [h, if_false]
    cases bot st.calls.length <;> rfl

theorem sendStatuses_consumed (bot : Transport) (args : CommandArguments) (st : ExecState) :
    (sendStatuses bot args st).consumed = st.consumed := by
  unfold sendStatuses
  by_cases h : st.msgIdToEdit ≠ 0
  · simp [h]
  · simp only [h, if_false]
    cases bot st.calls.length <;> rfl

theorem handleReply_statuses (bot : Transport) (args : CommandArguments) (st st' : ExecState)
    (rep : providerReply) (h : handleReply bot args st rep = some st') :
    ∃ v, st'.statuses = mapSet st.statuses rep.provider.GetName v := by
  unfold handleReply at h
  cases he : rep.err with
  | some err =>
    simp only [he, Option.some.injEq] at h
    subst h
    exact ⟨_, by rw [sendStatuses_statuses]⟩
  | none =>
    cases hd : rep.data with
    | none => simp [he, hd] at h
    | some data =>
      simp only [he, hd, Option.some.injEq] at h
      subst h
      exact ⟨successStatus data, by simp [sendStatuses_statuses]⟩

theorem handleReply_consumed (bot : Transport) (args : CommandArguments) (st st' : ExecState)
    (rep : providerReply) (h : handleReply bot args st rep = some st') :
    st'.consumed = st.consumed + 1 := by
  unfold handleReply at h
  cases he : rep.err with
  | some err =>
    simp only [he, Option.some.injEq] at h
    subst h
    rw [sendStatuses_consumed]
  | none =>
    cases hd : rep.data with
    | none => simp [he, hd] at h
    | some data =>
      simp only [he, hd, Option.some.injEq] at h
      subst h
      simp [sendStatuses_consumed]

theorem handleReply_keys (bot : Transport) (args : CommandArguments) (st st' : ExecState)
    (rep : providerReply) (h : handleReply bot args st rep = some st')
    (hmem : rep.provider.GetName ∈ mapKeys st.statuses) :
    mapKeys st'.statuses = mapKeys st.statuses := by
  obtain ⟨v, hv⟩ := handleReply_statuses bot args st st' rep h
  rw [hv, mapKeys_mapSet_of_mem _ _ _ hmem]

theorem rangeLoop_keys (bot : Transport) (args : CommandArguments) (closed : Bool)
    (replies : List providerReply) (st : ExecState)
    (hfrom : ∀ r ∈ replies, r.provider.GetName ∈ mapKeys st.statuses) :
    mapKeys (rangeLoop bot args closed st replies).1.statuses = mapKeys st.statuses := by
  induction replies generalizing st with
  | nil => simp [rangeLoop]
  | cons rep rest ih =>
    unfold rangeLoop
    cases h : handleReply bot args st rep with
    | none => simp
    | some st' =>
      have hk := handleReply_keys bot args st st' rep h (hfrom rep (by simp))
      simp only
      rw [ih st' (by intro r hr; rw [hk]; exact hfrom r (by simp [hr])), hk]

/-- C2: the entry written for the replying backend is the not-found marker
for a not-found error, the error marker followed by the error text for any
other error, the bare success marker for a success without steps, and the
success marker followed by the message of the last step otherwise. -/
theorem handleReply_status_entry (bot : Transport) (args : CommandArguments) (st : ExecState)
    (p : Provider) (d : Option TrackingData) (msg : String) (data : TrackingData) :
    (handleReply bot args st
        { provider := p, data := d, err := some { Error := msg, isNotFound := true } }).map
      (fun s => mapGet s.statuses p.GetName) = some "🔳 Not found" ∧
    (handleReply bot args st
        { provider := p, data := d, err := some { Error := msg, isNotFound := false } }).map
      (fun s => mapGet s.statuses p.GetName) = some ("⚠️ Error: " ++ msg) ∧
    (handleReply bot args st
        { provider := p, data := some { data with TrackingSteps := [] }, err := none }).map
      (fun s => mapGet s.statuses p.GetName) = some "🔎 " ∧
    ∀ (earlier : List TrackingStep) (last : TrackingStep),
      (handleReply bot args st
          { provider := p, data := some { data with TrackingSteps := earlier ++ [last] },
            err := none }).map
        (fun s => mapGet s.statuses p.GetName) = some ("🔎 " ++ last.Message) := by
  refine ⟨?_, ?_, ?_, ?_⟩
  · simp [handleReply, sendStatuses_statuses, mapGet_mapSet_same]
  · simp [handleReply, sendStatuses_statuses, mapGet_mapSet_same]
  · simp [handleReply, sendStatuses_statuses, mapGet_mapSet_same, successStatus]
  · intro earlier last
    simp [handleReply, sendStatuses_statuses, mapGet_mapSet_same, successStatus]

/-- Keys of the table at any point of the loop: those written by the launch loop. -/
theorem rangeLoop_keys_start (bot : Transport) (args : CommandArguments)
    (selected : List Provider) (replies : List providerReply)
    (hfrom : ∀ r ∈ replies, r.provider ∈ selected) :
    mapKeys (rangeLoop bot args false (sendStatuses bot args (startState selected))
      replies).1.statuses = mapKeys (startState selected).statuses := by
  have hsend : mapKeys (sendStatuses bot args (startState selected)).statuses
      = mapKeys (startState selected).statuses := by
    rw [sendStatuses_statuses]
  rw [rangeLoop_keys, hsend]
  intro r hr
  rw [hsend]
  exact (mem_mapKeys_initStatuses selected _).mpr (List.mem_map_of_mem _ (hfrom r hr))

/-- C9, as amended: from the launch loop on and after every processed reply the
table holds exactly one entry per distinct name of a selected backend, hence one
per selected backend when the names are pairwise distinct; at the start every
entry is the pending placeholder, and a reply keeps the keys and changes no
entry other than the one under the name of the replying backend. -/
theorem statuses_one_entry_per_backend (bot : Transport) (args : CommandArguments)
    (selected : List Provider) (replies : List providerReply)
    (hfrom : ∀ r ∈ replies, r.provider ∈ selected) :
    (mapKeys (startState selected).statuses).Nodup ∧
    (∀ k, k ∈ mapKeys (startState selected).statuses ↔ k ∈ selected.map Provider.GetName) ∧
    ((selected.map Provider.GetName).Nodup →
      mapKeys (startState selected).statuses = selected.map Provider.GetName) ∧
    (∀ p ∈ selected, mapGet (startState selected).statuses p.GetName = "⌛ checking...") ∧
    mapKeys (rangeLoop bot args false (sendStatuses bot args (startState selected))
      replies).1.statuses = mapKeys (startState selected).statuses ∧
    ∀ (rep : providerReply) (st' : ExecState), rep.provider ∈ selected →
      handleReply bot args (rangeLoop bot args false (sendStatuses bot args (startState selected))
        replies).1 rep = some st' →
      mapKeys st'.statuses = mapKeys (startState selected).statuses ∧
      ∀ k, k ≠ rep.provider.GetName →
        mapGet st'.statuses k = mapGet (rangeLoop bot args false
          (sendStatuses bot args (startState selected)) replies).1.statuses k := by
  have hloop := rangeLoop_keys_start bot args selected replies hfrom
  refine ⟨mapKeys_initStatuses_nodup selected, mem_mapKeys_initStatuses selected,
    mapKeys_initStatuses selected, ?_, hloop, ?_⟩
  · intro p hp
    show mapGet (initStatuses selected) p.GetName = checking
    apply mapGet_initStatuses
    exact (mem_mapKeys_initStatuses selected _).mpr (List.mem_map_of_mem _ hp)
  · intro rep st' hrep hstep
    constructor
    · rw [handleReply_keys bot args _ st' rep hstep, hloop]
      rw [hloop]
      exact (mem_mapKeys_initStatuses selected _).mpr (List.mem_map_of_mem _ hrep)
    · intro k hk
      obtain ⟨v, hv⟩ := handleReply_statuses bot args _ st' rep hstep
      rw [hv, mapGet_mapSet_other _ _ _ _ hk]

/-- Witness of C9: backends A and B, after the reply of B. -/
theorem statuses_one_entry_per_backend_witness :
    (mapKeys (startState [backendA, backendB]).statuses).Nodup ∧
    (∀ k, k ∈ mapKeys (startState [backendA, backendB]).statuses
      ↔ k ∈ [backendA, backendB].map Provider.GetName) ∧
    (([backendA, backendB].map Provider.GetName).Nodup →
      mapKeys (startState [backendA, backendB]).statuses
        = [backendA, backendB].map Provider.GetName) ∧
    (∀ p ∈ [backendA, backendB],
      mapGet (startState [backendA, backendB]).statuses p.GetName = "⌛ checking...") ∧
    mapKeys (rangeLoop goodBot sampleArgs false
      (sendStatuses goodBot sampleArgs (startState [backendA, backendB]))
      [producer sampleService "123" backendB]).1.statuses
        = mapKeys (startState [backendA, backendB]).statuses ∧
    ∀ (rep : providerReply) (st' : ExecState), rep.provider ∈ [backendA, backendB] →
      handleReply goodBot sampleArgs (rangeLoop goodBot sampleArgs false
        (sendStatuses goodBot sampleArgs (startState [backendA, backendB]))
        [producer sampleService "123" backendB]).1 rep = some st' →
      mapKeys st'.statuses = mapKeys (startState [backendA, backendB]).statuses ∧
      ∀ k, k ≠ rep.provider.GetName →
        mapGet st'.statuses k = mapGet (rangeLoop goodBot sampleArgs false
          (sendStatuses goodBot sampleArgs (startState [backendA, backendB]))
          [producer sampleService "123" backendB]).1.statuses k :=
  statuses_one_entry_per_backend goodBot sampleArgs [backendA, backendB]
    [producer sampleService "123" backendB]
    (by
      intro r hr
      have hr' : r = producer sampleService "123" backendB := by simpa using hr
      subst hr'
      simp [producer, sampleService, backendB])

/-- Counterexample to C9 as stated: the registry holds two backends that both
call themselves A and both recognize 123; both are selected and launched, and
the table has a single entry, which the reply of either one overwrites. -/
theorem statuses_single_entry_for_two_backends :
    (Execute [backendA, backendTwin] sampleService goodBot sampleArgs
      [backendA, backendTwin]).launched.length = 2 ∧
    mapKeys (startState (providersToCheck [backendA, backendTwin] "123")).statuses = ["A"] ∧
    mapKeys (Execute [backendA, backendTwin] sampleService goodBot sampleArgs
      [backendA, backendTwin]).final.statuses = ["A"] := by
  decide

/-! ## Rendering of the status text -/

theorem foldl_append_eq_joinLines (f : String → String) (l : List String) (init : String) :
    l.foldl (fun acc n => acc ++ f n) init = init ++ joinLines (l.map f) := by
  induction l generalizing init with
  | nil => simp [joinLines]
  | cons a rest ih =>
    simp only [List.foldl_cons, List.map_cons]
    rw [ih]
    simp [joinLines, String.append_assoc]

theorem statusText_eq_joinLines (m : StatusMap) :
    statusText m = joinLines ((sortStrings (mapKeys m)).map
      (fun n => n ++ ": <b>" ++ htmlEscape (mapGet m n) ++ "</b>\n")) := by
  unfold statusText
  rw [foldl_append_eq_joinLines (fun n => n ++ ": <b>" ++ htmlEscape (mapGet m n) ++ "</b>\n")]
  simp

theorem sendStatuses_calls (bot : Transport) (args : CommandArguments) (st : ExecState) :
    ∃ call, (sendStatuses bot args st).calls = st.calls ++ [(call, bot st.calls.length)] ∧
      call.text = statusText st.statuses ∧ isDetailCall call = false := by
  unfold sendStatuses
  by_cases h : st.msgIdToEdit ≠ 0
  · exact ⟨BotCall.NewEditMessageText args.ChatID st.msgIdToEdit (statusText st.statuses),
      by simp [h], rfl, rfl⟩
  · simp only [h, if_false]
    cases hb : bot st.calls.length with
    | ok id => exact ⟨BotCall.NewMessage args.ChatID (statusText st.statuses) 0 none, rfl, rfl, rfl⟩
    | fail e => exact ⟨BotCall.NewMessage args.ChatID (statusText st.statuses) 0 none, rfl, rfl, rfl⟩

theorem sortStrings_perm (l : List String) : (sortStrings l).Perm l :=
  List.perm_insertionSort _ l

theorem sortStrings_sorted (l : List String) : (sortStrings l).Sorted (fun a b => a ≤ b) :=
  List.sorted_insertionSort _ l

/-- The sorted key list does not depend on the order in which the map hands
out its keys: two enumerations of the same keys sort to the same list. -/
theorem sortStrings_eq_of_perm (l1 l2 : List String) (h : l1.Perm l2) :
    sortStrings l1 = sortStrings l2 :=
  List.eq_of_perm_of_sorted
    (((sortStrings_perm l1).trans h).trans (sortStrings_perm l2).symm)
    (sortStrings_sorted l1) (sortStrings_sorted l2)

/-- C3, as amended: at every point of an invocation the status text is the
concatenation, over the distinct names of the selected backends in strictly
ascending order, of the line made of the name, a colon, and the escaped current
status in bold: one line per selected backend when the names are pairwise
distinct; each render sends exactly this text. -/
theorem sendStatuses_renders_sorted_lines (bot : Transport) (args : CommandArguments)
    (selected : List Provider) (replies : List providerReply)
    (hfrom : ∀ r ∈ replies, r.provider ∈ selected) :
    (sortStrings (selected.map Provider.GetName).dedup).Perm
      (selected.map Provider.GetName).dedup ∧
    ((selected.map Provider.GetName).Nodup →
      (sortStrings (selected.map Provider.GetName).dedup).Perm (selected.map Provider.GetName)) ∧
    (sortStrings (selected.map Provider.GetName).dedup).Sorted (fun a b => a < b) ∧
    statusText (rangeLoop bot args false (sendStatuses bot args (startState selected))
        replies).1.statuses
      = joinLines ((sortStrings (selected.map Provider.GetName).dedup).map
          (fun n => n ++ ": <b>" ++ htmlEscape (mapGet (rangeLoop bot args false
            (sendStatuses bot args (startState selected)) replies).1.statuses n) ++ "</b>\n")) ∧
    ∃ call res,
      (sendStatuses bot args (rangeLoop bot args false (sendStatuses bot args (startState selected))
        replies).1).calls
        = (rangeLoop bot args false (sendStatuses bot args (startState selected))
            replies).1.calls ++ [(call, res)] ∧
      call.text = statusText (rangeLoop bot args false
        (sendStatuses bot args (startState selected)) replies).1.statuses := by
  have hkeys := rangeLoop_keys_start bot args selected replies hfrom
  have hperm : (mapKeys (startState selected).statuses).Perm
      (selected.map Provider.GetName).dedup := by
    refine (List.perm_ext_iff_of_nodup (mapKeys_initStatuses_nodup selected)
      (List.nodup_dedup _)).mpr ?_
    intro k
    rw [List.mem_dedup]
    exact mem_mapKeys_initStatuses selected k
  refine ⟨sortStrings_perm _, ?_, ?_, ?_, ?_⟩
  · intro hnd
    have := sortStrings_perm (selected.map Provider.GetName).dedup
    rwa [hnd.dedup] at this ⊢
  · exact (sortStrings_sorted _).lt_of_le
      ((sortStrings_perm _).nodup_iff.mpr (List.nodup_dedup _))
  · rw [statusText_eq_joinLines, hkeys, sortStrings_eq_of_perm _ _ hperm]
  · obtain ⟨call, hc, ht, _⟩ := sendStatuses_calls bot args
      (rangeLoop bot args false (sendStatuses bot args (startState selected)) replies).1
    exact ⟨call, _, hc, ht⟩

/-- Witness of C3: backends B and A, after the reply of A. -/
theorem sendStatuses_renders_sorted_lines_witness :
    (sortStrings ([backendB, backendA].map Provider.GetName).dedup).Sorted (fun a b => a < b) ∧
    statusText (rangeLoop goodBot sampleArgs false
        (sendStatuses goodBot sampleArgs (startState [backendB, backendA]))
        [producer sampleService "123" backendA]).1.statuses
      = joinLines ((sortStrings ([backendB, backendA].map Provider.GetName).dedup).map
          (fun n => n ++ ": <b>" ++ htmlEscape (mapGet (rangeLoop goodBot sampleArgs false
            (sendStatuses goodBot sampleArgs (startState [backendB, backendA]))
            [producer sampleService "123" backendA]).1.statuses n) ++ "</b>\n")) :=
  have h := sendStatuses_renders_sorted_lines goodBot sampleArgs [backendB, backendA]
    [producer sampleService "123" backendA]
    (by
      intro r hr
      have hr' : r = producer sampleService "123" backendA := by simpa using hr
      subst hr'
      simp [producer, sampleService, backendA])
  ⟨h.2.2.1, h.2.2.2.1⟩

/-- Counterexample to C3 as stated: with two selected backends that both call
themselves A, the first render sends a text of one line, not one line per
selected backend. -/
theorem status_text_single_line_for_two_backends :
    (Execute [backendA, backendTwin] sampleService goodBot sampleArgs
      [backendA, backendTwin]).launched.length = 2 ∧
    ((Execute [backendA, backendTwin] sampleService goodBot sampleArgs
      [backendA, backendTwin]).final.calls.head?.map (fun c => c.1.text))
      = some "A: <b>⌛ checking...</b>\n" := by
  decide

/-! ## The detail text -/

theorem stepBody_eq (len i : Nat) (ts : TrackingStep) (acc : String) :
    stepBody len i ts acc = acc ++ detailLine len (i, ts) := by
  have hiff : ((i : Int) = (len : Int) - 1) ↔ i + 1 = len := by omega
  unfold stepBody detailLine stepLine
  by_cases hb : i + 1 = len
  · have hb' : (i : Int) = (len : Int) - 1 := hiff.mpr hb
    by_cases hl : ts.Location = ""
    · simp [hb, hb', hl, String.append_assoc]
    · simp [hb, hb', hl, String.append_assoc]
  · have hb' : ¬ (i : Int) = (len : Int) - 1 := fun h => hb (hiff.mp h)
    by_cases hl : ts.Location = ""
    · simp [hb, hb', hl, String.append_assoc]
    · simp [hb, hb', hl, String.append_assoc]

theorem stepsLoop_eq (len : Nat) (steps : List TrackingStep) (i : Nat) (acc : String) :
    stepsLoop len i steps acc = acc ++ joinLines ((steps.enumFrom i).map (detailLine len)) := by
  induction steps generalizing i acc with
  | nil => simp [stepsLoop, joinLines]
  | cons ts rest ih =>
    simp only [stepsLoop, List.enumFrom_cons, List.map_cons]
    rw [ih, stepBody_eq]
    simp [joinLines, String.append_assoc]

/-- C8: the detail text is the header naming the shipment number and the
backend, then one line per step in the original order (formatted time, space,
message, location marker exactly when the location is not empty), the last line
and no other wrapped in bold, then the destination trailer exactly when the
destination is not empty. -/
theorem longTracking_layout (data : TrackingData) :
    longTracking data =
      ("Detailed tracking for package <i>" ++ data.ShipmentNumber ++ "</i> provided by <b>" ++
        data.ProviderName ++ "</b>:\n") ++
      joinLines (data.TrackingSteps.enum.map (fun it =>
        if it.1 + 1 = data.TrackingSteps.length then
          "<b>" ++ (it.2.Datetime.Format ++ " " ++ it.2.Message ++
            (if it.2.Location = "" then "" else " 📌 " ++ it.2.Location) ++ "\n") ++ "</b>"
        else
          it.2.Datetime.Format ++ " " ++ it.2.Message ++
            (if it.2.Location = "" then "" else " 📌 " ++ it.2.Location) ++ "\n")) ++
      (if data.Destination = "" then "" else "\nThe package is headed to " ++ data.Destination) := by
  unfold longTracking
  simp only [stepsLoop_eq, List.enum]
  have hfun : detailLine data.TrackingSteps.length = (fun it : Nat × TrackingStep =>
      if it.1 + 1 = data.TrackingSteps.length then
        "<b>" ++ (it.2.Datetime.Format ++ " " ++ it.2.Message ++
          (if it.2.Location = "" then "" else " 📌 " ++ it.2.Location) ++ "\n") ++ "</b>"
      else
        it.2.Datetime.Format ++ " " ++ it.2.Message ++
          (if it.2.Location = "" then "" else " 📌 " ++ it.2.Location) ++ "\n") := by
    funext it
    simp [detailLine, stepLine]
  rw [hfun]
  by_cases hd : data.Destination = ""
  · simp [hd]
  · simp [hd]

/-! ## Detail messages -/

theorem detailCalls_append (a b : List (BotCall × BotReply)) :
    detailCalls (a ++ b) = detailCalls a ++ detailCalls b := by
  simp [detailCalls]

theorem sendStatuses_detailCalls (bot : Transport) (args : CommandArguments) (st : ExecState) :
    detailCalls (sendStatuses bot args st).calls = detailCalls st.calls := by
  obtain ⟨call, hc, _, hd⟩ := sendStatuses_calls bot args st
  rw [hc, detailCalls_append]
  simp [detailCalls, hd]

theorem handleReply_eq_none (bot : Transport) (args : CommandArguments) (st : ExecState)
    (rep : providerReply) :
    handleReply bot args st rep = none ↔ rep.err = none ∧ rep.data = none := by
  unfold handleReply
  cases he : rep.err with
  | some err => simp
  | none =>
    cases hd : rep.data with
    | none => simp
    | some data => simp

theorem handleReply_detailCalls (bot : Transport) (args : CommandArguments) (st st' : ExecState)
    (rep : providerReply) (h : handleReply bot args st rep = some st') :
    detailCalls st'.calls = detailCalls st.calls ++ (detailOwed args rep).toList := by
  unfold handleReply at h
  cases he : rep.err with
  | some err =>
    simp only [he, Option.some.injEq] at h
    subst h
    rw [sendStatuses_detailCalls]
    simp [detailOwed, he]
  | none =>
    cases hd : rep.data with
    | none => simp [he, hd] at h
    | some data =>
      simp only [he, hd, Option.some.injEq] at h
      subst h
      simp only [detailCalls_append, sendStatuses_detailCalls]
      simp [detailOwed, he, hd, detailCalls, detailCall, isDetailCall]

theorem rangeLoop_detailCalls (bot : Transport) (args : CommandArguments) (closed : Bool)
    (replies : List providerReply) (st : ExecState)
    (hwf : ∀ r ∈ replies, r.err = none → r.data ≠ none) :
    detailCalls (rangeLoop bot args closed st replies).1.calls
      = detailCalls st.calls ++ replies.filterMap (detailOwed args) := by
  induction replies generalizing st with
  | nil => simp [rangeLoop]
  | cons rep rest ih =>
    unfold rangeLoop
    cases h : handleReply bot args st rep with
    | none =>
      have := (handleReply_eq_none bot args st rep).mp h
      exact absurd this.2 (hwf rep (by simp) this.1)
    | some st' =>
      simp only
      rw [ih st' (fun r hr => hwf r (by simp [hr])), handleReply_detailCalls bot args st st' rep h]
      cases ho : detailOwed args rep with
      | none => simp [List.filterMap_cons, ho]
      | some c => simp [List.filterMap_cons, ho]

theorem length_filterMap_detailOwed (args : CommandArguments) (replies : List providerReply)
    (hwf : ∀ r ∈ replies, r.err = none → r.data ≠ none) :
    (replies.filterMap (detailOwed args)).length = (replies.filter isSuccess).length := by
  induction replies with
  | nil => simp
  | cons rep rest ih =>
    have ih' := ih (fun r hr => hwf r (by simp [hr]))
    cases he : rep.err with
    | some err =>
      have h1 : detailOwed args rep = none := by simp [detailOwed, he]
      have h2 : isSuccess rep = false := by simp [isSuccess, he]
      simp [List.filterMap_cons, h1, h2, ih']
    | none =>
      cases hd : rep.data with
      | none => exact absurd hd (hwf rep (by simp) he)
      | some data =>
        have h1 : detailOwed args rep = some (detailCall args data) := by
          simp [detailOwed, he, hd]
        have h2 : isSuccess rep = true := by simp [isSuccess, he]
        simp [List.filterMap_cons, h1, h2, ih']

/-- C5: over any sequence of processed replies, the detail messages sent are,
in order, exactly the detail messages of the successful replies, none for a
reply with an error; their number is the number of successful replies. -/
theorem detail_once_per_success (bot : Transport) (args : CommandArguments)
    (selected : List Provider) (replies : List providerReply)
    (hwf : ∀ r ∈ replies, r.err = none → r.data ≠ none) :
    detailCalls (rangeLoop bot args false (sendStatuses bot args (startState selected))
        replies).1.calls = replies.filterMap (detailOwed args) ∧
    (detailCalls (rangeLoop bot args false (sendStatuses bot args (startState selected))
        replies).1.calls).length = (replies.filter isSuccess).length ∧
    ∀ r ∈ replies, r.err ≠ none → detailOwed args r = none := by
  have h := rangeLoop_detailCalls bot args false replies
    (sendStatuses bot args (startState selected)) hwf
  rw [sendStatuses_detailCalls] at h
  have h0 : detailCalls (startState selected).calls = [] := rfl
  rw [h0, List.nil_append] at h
  refine ⟨h, ?_, ?_⟩
  · rw [h]
    exact length_filterMap_detailOwed args replies hwf
  · intro r _ hr
    cases he : r.err with
    | none => exact absurd he hr
    | some err => simp [detailOwed, he]

/-- Witness of C5: B answers not-found, then A answers with two steps. -/
theorem detail_once_per_success_witness :
    detailCalls (rangeLoop goodBot sampleArgs false
        (sendStatuses goodBot sampleArgs (startState [backendA, backendB]))
        [producer sampleService "123" backendB, producer sampleService "123" backendA]).1.calls
      = [producer sampleService "123" backendB, producer sampleService "123" backendA].filterMap
          (detailOwed sampleArgs) :=
  (detail_once_per_success goodBot sampleArgs [backendA, backendB]
    [producer sampleService "123" backendB, producer sampleService "123" backendA]
    (by
      intro r hr
      simp only [List.mem_cons, List.mem_singleton, List.not_mem_nil, or_false] at hr
      rcases hr with hr | hr
      · subst hr
        simp [producer, sampleService, backendB]
      · subst hr
        simp [producer, sampleService, backendA])).1

/-! ## Early returns -/

/-- C6: when no backend of the registry recognizes the number, the call
returns the no-provider error, no producer has been launched (so the query
service has not been called) and no message has been sent or edited. -/
theorem Execute_no_provider (AllProviders : List Provider) (svc : QueryService)
    (bot : Transport) (args : CommandArguments) (arrival : List Provider)
    (shipmentNumber : String) (rest : List String)
    (hargs : args.Arguments = shipmentNumber :: rest)
    (hno : ∀ p ∈ AllProviders, p.MatchesNumber shipmentNumber = false) :
    (Execute AllProviders svc bot args arrival).outcome
      = Outcome.returned (some "no tracking providers support this tracking number") ∧
    (Execute AllProviders svc bot args arrival).launched = [] ∧
    (Execute AllProviders svc bot args arrival).final.calls = [] := by
  have hsel : providersToCheck AllProviders shipmentNumber = [] := by
    unfold providersToCheck
    rw [List.filter_eq_nil_iff]
    intro p hp
    simp [hno p hp]
  unfold Execute
  simp [hargs, hsel, noProviderError, ExecState.empty]

/-- Witness of C6: a registry whose only backend recognizes nothing. -/
theorem Execute_no_provider_witness :
    (Execute [backendNever] sampleService goodBot sampleArgs []).outcome
      = Outcome.returned (some "no tracking providers support this tracking number") ∧
    (Execute [backendNever] sampleService goodBot sampleArgs []).launched = [] ∧
    (Execute [backendNever] sampleService goodBot sampleArgs []).final.calls = [] :=
  Execute_no_provider [backendNever] sampleService goodBot sampleArgs [] "123" [] rfl
    (by
      intro p hp
      have hp' : p = backendNever := by simpa using hp
      subst hp'
      rfl)

/-! ## The producer -/

theorem producer_never_both (svc : QueryService) (shipmentNumber : String) (p : Provider) :
    ¬ ((producer svc shipmentNumber p).data ≠ none ∧ (producer svc shipmentNumber p).err ≠ none) := by
  unfold producer
  rcases h : svc p shipmentNumber with ⟨d, e⟩
  cases e <;> simp

/-- C10, as amended: for every outcome of the query service with a result or
an error present, the reply carries the backend and exactly one of a result and
an error; when it carries no error, its result is the one the service returned. -/
theorem producer_reply_exactly_one (svc : QueryService) (shipmentNumber : String) (p : Provider)
    (h : (svc p shipmentNumber).1 ≠ none ∨ (svc p shipmentNumber).2 ≠ none) :
    (producer svc shipmentNumber p).provider = p ∧
    (((producer svc shipmentNumber p).data ≠ none ∧ (producer svc shipmentNumber p).err = none) ∨
      ((producer svc shipmentNumber p).data = none ∧ (producer svc shipmentNumber p).err ≠ none)) ∧
    ((producer svc shipmentNumber p).err = none →
      ∃ d, (producer svc shipmentNumber p).data = some d ∧ (svc p shipmentNumber).1 = some d) := by
  unfold producer
  rcases hs : svc p shipmentNumber with ⟨d, e⟩
  rw [hs] at h
  cases e with
  | some err => simp
  | none =>
    cases d with
    | none => simp at h
    | some d => simp

/-- Witness of C10: the sample service asked by backend A. -/
theorem producer_reply_exactly_one_witness :
    (producer sampleService "123" backendA).provider = backendA ∧
    (((producer sampleService "123" backendA).data ≠ none ∧
        (producer sampleService "123" backendA).err = none) ∨
      ((producer sampleService "123" backendA).data = none ∧
        (producer sampleService "123" backendA).err ≠ none)) ∧
    ((producer sampleService "123" backendA).err = none →
      ∃ d, (producer sampleService "123" backendA).data = some d ∧
        (sampleService backendA "123").1 = some d) :=
  producer_reply_exactly_one sampleService "123" backendA
    (Or.inl (by simp [sampleService, backendA]))

/-- Counterexample to C10 as stated: on the outcome (nil, nil) the reply
carries neither a result nor an error, and the loop body panics on it. -/
theorem producer_reply_neither :
    (producer nilService "123" backendA).data = none ∧
    (producer nilService "123" backendA).err = none ∧
    (handleReply goodBot sampleArgs (startState [backendA])
      (producer nilService "123" backendA)).isNone = true := by
  refine ⟨rfl, rfl, rfl⟩

/-! ## The status message: send once, then edit -/

theorem statusCalls_append (a b : List (BotCall × BotReply)) :
    statusCalls (a ++ b) = statusCalls a ++ statusCalls b := by
  simp [statusCalls]

theorem StatusShape_congr (args : CommandArguments) (st st' : ExecState)
    (hid : st'.msgIdToEdit = st.msgIdToEdit)
    (hcalls : statusCalls st'.calls = statusCalls st.calls)
    (h : StatusShape args st) : StatusShape args st' := by
  unfold StatusShape at *
  rw [hid, hcalls]
  exact h

theorem StatusShape_startState (args : CommandArguments) (selected : List Provider) :
    StatusShape args (startState selected) := by
  left
  exact ⟨rfl, by simp [startState, statusCalls]⟩

theorem sendStatuses_edit (bot : Transport) (args : CommandArguments) (st : ExecState)
    (hz : st.msgIdToEdit ≠ 0) :
    sendStatuses bot args st = { st with calls := st.calls ++
      [(BotCall.NewEditMessageText args.ChatID st.msgIdToEdit (statusText st.statuses),
        bot st.calls.length)] } := by
  unfold sendStatuses
  simp [hz]

theorem sendStatuses_new_fail (bot : Transport) (args : CommandArguments) (st : ExecState)
    (e : String) (hz : st.msgIdToEdit = 0) (hb : bot st.calls.length = BotReply.fail e) :
    sendStatuses bot args st = { st with calls := st.calls ++
      [(BotCall.NewMessage args.ChatID (statusText st.statuses) 0 none, BotReply.fail e)] } := by
  unfold sendStatuses
  simp [hz, hb]

theorem sendStatuses_new_ok (bot : Transport) (args : CommandArguments) (st : ExecState)
    (id : Int) (hz : st.msgIdToEdit = 0) (hb : bot st.calls.length = BotReply.ok id) :
    sendStatuses bot args st = { st with
      calls := st.calls ++
        [(BotCall.NewMessage args.ChatID (statusText st.statuses) 0 none, BotReply.ok id)],
      msgIdToEdit := id } := by
  unfold sendStatuses
  simp [hz, hb]

theorem statusCalls_snoc_status (calls : List (BotCall × BotReply)) (x : BotCall × BotReply)
    (hx : isDetailCall x.1 = false) : statusCalls (calls ++ [x]) = statusCalls calls ++ [x] := by
  simp [statusCalls, hx]

theorem statusCalls_snoc_detail (calls : List (BotCall × BotReply)) (x : BotCall × BotReply)
    (hx : isDetailCall x.1 = true) : statusCalls (calls ++ [x]) = statusCalls calls := by
  simp [statusCalls, hx]

theorem StatusShape_sendStatuses (bot : Transport) (args : CommandArguments) (st : ExecState)
    (h : StatusShape args st) : StatusShape args (sendStatuses bot args st) := by
  by_cases hz : st.msgIdToEdit = 0
  · have hall : ∀ x ∈ statusCalls st.calls, isStatusNew x.1 = true ∧ handleAfter x.2 = 0 := by
      rcases h with h | h
      · exact h.2
      · exact absurd hz h.1
    cases hb : bot st.calls.length with
    | fail e =>
      rw [sendStatuses_new_fail bot args st e hz hb]
      left
      refine ⟨hz, ?_⟩
      intro x hx
      simp only at hx
      rw [statusCalls_snoc_status st.calls
        (BotCall.NewMessage args.ChatID (statusText st.statuses) 0 none, BotReply.fail e) rfl,
        List.mem_append, List.mem_singleton] at hx
      rcases hx with hx | hx
      · exact hall x hx
      · subst hx
        exact ⟨rfl, rfl⟩
    | ok id =>
      rw [sendStatuses_new_ok bot args st id hz hb]
      by_cases hid : id = 0
      · left
        refine ⟨hid, ?_⟩
        intro x hx
        simp only at hx
        rw [statusCalls_snoc_status st.calls
          (BotCall.NewMessage args.ChatID (statusText st.statuses) 0 none, BotReply.ok id) rfl,
          List.mem_append, List.mem_singleton] at hx
        rcases hx with hx | hx
        · exact hall x hx
        · subst hx
          exact ⟨rfl, hid⟩
      · right
        refine ⟨hid, statusCalls st.calls,
          (BotCall.NewMessage args.ChatID (statusText st.statuses) 0 none, BotReply.ok id), [],
          ?_, hall, rfl, rfl, by simp⟩
        simp only
        rw [statusCalls_snoc_status st.calls
          (BotCall.NewMessage args.ChatID (statusText st.statuses) 0 none, BotReply.ok id) rfl]
  · have hex : ∃ pre c post, statusCalls st.calls = pre ++ c :: post ∧
        (∀ x ∈ pre, isStatusNew x.1 = true ∧ handleAfter x.2 = 0) ∧
        isStatusNew c.1 = true ∧ handleAfter c.2 = st.msgIdToEdit ∧
        ∀ x ∈ post, ∃ text, x.1 = BotCall.NewEditMessageText args.ChatID st.msgIdToEdit text := by
      rcases h with h | h
      · exact absurd h.1 hz
      · exact h.2
    obtain ⟨pre, c, post, hsplit, hpre, hc1, hc2, hpost⟩ := hex
    rw [sendStatuses_edit bot args st hz]
    right
    refine ⟨hz, pre, c, post ++ [(BotCall.NewEditMessageText args.ChatID st.msgIdToEdit
      (statusText st.statuses), bot st.calls.length)], ?_, hpre, hc1, hc2, ?_⟩
    · simp only
      rw [statusCalls_snoc_status st.calls
        (BotCall.NewEditMessageText args.ChatID st.msgIdToEdit (statusText st.statuses),
          bot st.calls.length) rfl, hsplit]
      simp
    · intro x hx
      simp only [List.mem_append, List.mem_singleton] at hx
      rcases hx with hx | hx
      · exact hpost x hx
      · subst hx
        exact ⟨_, rfl⟩

theorem StatusShape_handleReply (bot : Transport) (args : CommandArguments) (st st' : ExecState)
    (rep : providerReply) (hstep : handleReply bot args st rep = some st')
    (h : StatusShape args st) : StatusShape args st' := by
  unfold handleReply at hstep
  cases he : rep.err with
  | some err =>
    simp only [he, Option.some.injEq] at hstep
    subst hstep
    apply StatusShape_sendStatuses
    exact StatusShape_congr args st _ rfl rfl h
  | none =>
    cases hd : rep.data with
    | none => simp [he, hd] at hstep
    | some data =>
      simp only [he, hd, Option.some.injEq] at hstep
      subst hstep
      refine StatusShape_congr args (sendStatuses bot args _) _ rfl ?_
        (StatusShape_sendStatuses bot args _ (StatusShape_congr args st _ rfl rfl h))
      exact statusCalls_snoc_detail _ _ rfl

theorem StatusShape_rangeLoop (bot : Transport) (args : CommandArguments) (closed : Bool)
    (replies : List providerReply) (st : ExecState) (h : StatusShape args st) :
    StatusShape args (rangeLoop bot args closed st replies).1 := by
  induction replies generalizing st with
  | nil => simpa [rangeLoop] using h
  | cons rep rest ih =>
    unfold rangeLoop
    cases hstep : handleReply bot args st rep with
    | none => simpa using h
    | some st' => exact ih st' (StatusShape_handleReply bot args st st' rep hstep h)

theorem statusCalls_length_sendStatuses (bot : Transport) (args : CommandArguments)
    (st : ExecState) :
    (statusCalls (sendStatuses bot args st).calls).length = (statusCalls st.calls).length + 1 := by
  obtain ⟨call, hc, _, hd⟩ := sendStatuses_calls bot args st
  rw [hc, statusCalls_snoc_status st.calls (call, bot st.calls.length) hd]
  simp

theorem statusCalls_length_handleReply (bot : Transport) (args : CommandArguments)
    (st st' : ExecState) (rep : providerReply) (hstep : handleReply bot args st rep = some st')
    (h : (statusCalls st.calls).length = st.consumed + 1) :
    (statusCalls st'.calls).length = st'.consumed + 1 := by
  unfold handleReply at hstep
  cases he : rep.err with
  | some err =>
    simp only [he, Option.some.injEq] at hstep
    subst hstep
    rw [statusCalls_length_sendStatuses, sendStatuses_consumed]
    simp [h]
  | none =>
    cases hd : rep.data with
    | none => simp [he, hd] at hstep
    | some data =>
      simp only [he, hd, Option.some.injEq] at hstep
      subst hstep
      simp only
      rw [statusCalls_snoc_detail _ (detailCall args data, _) rfl,
        statusCalls_length_sendStatuses, sendStatuses_consumed]
      simp [h]

theorem statusCalls_length_rangeLoop (bot : Transport) (args : CommandArguments) (closed : Bool)
    (replies : List providerReply) (st : ExecState)
    (h : (statusCalls st.calls).length = st.consumed + 1) :
    (statusCalls (rangeLoop bot args closed st replies).1.calls).length
      = (rangeLoop bot args closed st replies).1.consumed + 1 := by
  induction replies generalizing st with
  | nil => simpa [rangeLoop] using h
  | cons rep rest ih =>
    unfold rangeLoop
    cases hstep : handleReply bot args st rep with
    | none => simpa using h
    | some st' => exact ih st' (statusCalls_length_handleReply bot args st st' rep hstep h)

/-- C4, as amended: the status text is rendered once at the start and once per
consumed reply; the renders are new-message sends for as long as no send has
left a message id, and once a new-message send has succeeded with a non-zero id
every later render is an edit of that same message: the message is created at
most once and never re-created. -/
theorem status_message_created_at_most_once (bot : Transport) (args : CommandArguments)
    (selected : List Provider) (replies : List providerReply) :
    (statusCalls (rangeLoop bot args false (sendStatuses bot args (startState selected))
        replies).1.calls).length
      = (rangeLoop bot args false (sendStatuses bot args (startState selected))
          replies).1.consumed + 1 ∧
    (((rangeLoop bot args false (sendStatuses bot args (startState selected))
        replies).1.msgIdToEdit = 0 ∧
      ∀ x ∈ statusCalls (rangeLoop bot args false (sendStatuses bot args (startState selected))
          replies).1.calls,
        isStatusNew x.1 = true ∧ handleAfter x.2 = 0) ∨
    ((rangeLoop bot args false (sendStatuses bot args (startState selected))
        replies).1.msgIdToEdit ≠ 0 ∧
      ∃ pre c post,
        statusCalls (rangeLoop bot args false (sendStatuses bot args (startState selected))
          replies).1.calls = pre ++ c :: post ∧
        (∀ x ∈ pre, isStatusNew x.1 = true ∧ handleAfter x.2 = 0) ∧
        isStatusNew c.1 = true ∧
        handleAfter c.2 = (rangeLoop bot args false (sendStatuses bot args (startState selected))
          replies).1.msgIdToEdit ∧
        ∀ x ∈ post, ∃ text, x.1 = BotCall.NewEditMessageText args.ChatID
          (rangeLoop bot args false (sendStatuses bot args (startState selected))
            replies).1.msgIdToEdit text)) :=
  ⟨statusCalls_length_rangeLoop bot args false replies _
      (by rw [statusCalls_length_sendStatuses, sendStatuses_consumed]; rfl),
    StatusShape_rangeLoop bot args false replies _
      (StatusShape_sendStatuses bot args _ (StatusShape_startState args selected))⟩

/-- Counterexample to C4 as stated: the first send fails, so the render that
follows the reply of A sends a second new message. -/
theorem status_message_sent_again_after_failure :
    ((statusCalls (Execute [backendA] sampleService flakyBot sampleArgs
      [backendA]).final.calls).filter (fun c => isStatusNew c.1)).length = 2 := by
  decide

/-! ## Termination -/

theorem rangeLoop_open_never_exits (bot : Transport) (args : CommandArguments)
    (replies : List providerReply) (st : ExecState) :
    (rangeLoop bot args false st replies).2 ≠ LoopEnd.exited := by
  induction replies generalizing st with
  | nil => simp [rangeLoop]
  | cons rep rest ih =>
    unfold rangeLoop
    cases h : handleReply bot args st rep with
    | none => simp
    | some st' => exact ih st'

theorem rangeLoop_consumes_all (bot : Transport) (args : CommandArguments)
    (replies : List providerReply) (st : ExecState)
    (hwf : ∀ r ∈ replies, r.err = none → r.data ≠ none) :
    (rangeLoop bot args false st replies).1.consumed = st.consumed + replies.length ∧
    (rangeLoop bot args false st replies).2 = LoopEnd.blocked := by
  induction replies generalizing st with
  | nil => simp [rangeLoop]
  | cons rep rest ih =>
    unfold rangeLoop
    cases h : handleReply bot args st rep with
    | none =>
      have := (handleReply_eq_none bot args st rep).mp h
      exact absurd this.2 (hwf rep (by simp) this.1)
    | some st' =>
      have hc := handleReply_consumed bot args st st' rep h
      have := ih st' (fun r hr => hwf r (by simp [hr]))
      simp only [this, hc, List.length_cons, and_true]
      omega

/-- With at least one backend selected the call never reaches `return nil`:
whatever the replies and their order, it ends blocked on the channel or in a panic. -/
theorem Execute_never_returns_nil (AllProviders : List Provider) (svc : QueryService)
    (bot : Transport) (args : CommandArguments) (arrival : List Provider) :
    (Execute AllProviders svc bot args arrival).outcome ≠ Outcome.returned none := by
  unfold Execute
  cases hargs : args.Arguments with
  | nil => simp
  | cons shipmentNumber rest =>
    by_cases hsel : (providersToCheck AllProviders shipmentNumber).length = 0
    · simp [hsel]
    · simp only [hsel, if_false]
      have := rangeLoop_open_never_exits bot args (arrival.map (producer svc shipmentNumber))
        (sendStatuses bot args (startState (providersToCheck AllProviders shipmentNumber)))
      cases hend : (rangeLoop bot args false
        (sendStatuses bot args (startState (providersToCheck AllProviders shipmentNumber)))
        (arrival.map (producer svc shipmentNumber))).2 with
      | exited => exact absurd hend this
      | panicked => simp [afterLoop]
      | blocked => simp [afterLoop]

/-- The call returns an error exactly when the argument list is empty or no
backend recognizes the number. -/
theorem Execute_returns_error_iff (AllProviders : List Provider) (svc : QueryService)
    (bot : Transport) (args : CommandArguments) (arrival : List Provider) :
    (∃ e, (Execute AllProviders svc bot args arrival).outcome = Outcome.returned (some e)) ↔
      (args.Arguments = [] ∨ ∃ shipmentNumber rest, args.Arguments = shipmentNumber :: rest ∧
        providersToCheck AllProviders shipmentNumber = []) := by
  unfold Execute
  cases hargs : args.Arguments with
  | nil => simp
  | cons shipmentNumber rest =>
    by_cases hsel : providersToCheck AllProviders shipmentNumber = []
    · simp [hsel]
    · have hlen : ¬ (providersToCheck AllProviders shipmentNumber).length = 0 := by
        simpa using hsel
      simp only [hlen, if_false, List.cons.injEq, reduceCtorEq, false_or]
      constructor
      · rintro ⟨e, he⟩
        cases hend : (rangeLoop bot args false
          (sendStatuses bot args (startState (providersToCheck AllProviders shipmentNumber)))
          (arrival.map (producer svc shipmentNumber))).2 <;> simp [hend, afterLoop] at he
      · rintro ⟨n, r, ⟨hn, _⟩, hnil⟩
        subst hn
        exact absurd hnil hsel

/-- With every launched producer delivering a well-formed reply, in any order,
the loop consumes all N replies and then the call stays blocked. -/
theorem Execute_blocks_after_all_replies (AllProviders : List Provider) (svc : QueryService)
    (bot : Transport) (args : CommandArguments) (arrival : List Provider)
    (shipmentNumber : String) (rest : List String)
    (hargs : args.Arguments = shipmentNumber :: rest)
    (hsel : providersToCheck AllProviders shipmentNumber ≠ [])
    (hperm : arrival.Perm (providersToCheck AllProviders shipmentNumber))
    (hwf : ∀ p ∈ arrival, svc p shipmentNumber ≠ (none, none)) :
    (Execute AllProviders svc bot args arrival).final.consumed
      = (providersToCheck AllProviders shipmentNumber).length ∧
    (Execute AllProviders svc bot args arrival).outcome = Outcome.blocked := by
  have hlen : ¬ (providersToCheck AllProviders shipmentNumber).length = 0 := by
    simpa using hsel
  have hwf' : ∀ r ∈ arrival.map (producer svc shipmentNumber), r.err = none → r.data ≠ none := by
    intro r hr
    obtain ⟨p, hp, rfl⟩ := List.mem_map.mp hr
    have := hwf p hp
    unfold producer
    rcases hs : svc p shipmentNumber with ⟨d, e⟩
    rw [hs] at this
    cases e with
    | some err => simp
    | none =>
      cases d with
      | none => simp at this
      | some d => simp
  have h := rangeLoop_consumes_all bot args (arrival.map (producer svc shipmentNumber))
    (sendStatuses bot args (startState (providersToCheck AllProviders shipmentNumber))) hwf'
  unfold Execute
  simp only [hargs, hlen, if_false]
  rw [h.2, h.1, sendStatuses_consumed]
  simp [startState, afterLoop, hperm.length_eq]

/-- Past the two early returns, the producers launched are the selected
backends and the final state is the one the loop leaves from the state that
follows the first render. -/
theorem Execute_final (AllProviders : List Provider) (svc : QueryService)
    (bot : Transport) (args : CommandArguments) (arrival : List Provider)
    (shipmentNumber : String) (rest : List String)
    (hargs : args.Arguments = shipmentNumber :: rest)
    (hsel : providersToCheck AllProviders shipmentNumber ≠ []) :
    (Execute AllProviders svc bot args arrival).launched
      = providersToCheck AllProviders shipmentNumber ∧
    (Execute AllProviders svc bot args arrival).final
      = (rangeLoop bot args false
          (sendStatuses bot args (startState (providersToCheck AllProviders shipmentNumber)))
          (arrival.map (producer svc shipmentNumber))).1 := by
  have hlen : ¬ (providersToCheck AllProviders shipmentNumber).length = 0 := by
    simpa using hsel
  unfold Execute
  simp [hargs, hlen]

/-- C1, on the code: with backends A and B selected and both replies delivered
(B first), the loop consumes the two replies and the call then stays blocked in
the receive on the never-closed channel instead of returning. -/
theorem Execute_two_backends_blocks :
    (Execute [backendA, backendB] sampleService goodBot sampleArgs
      [backendB, backendA]).final.consumed = 2 ∧
    (Execute [backendA, backendB] sampleService goodBot sampleArgs
      [backendB, backendA]).outcome = Outcome.blocked := by
  decide

/-- C7, on the code: with backend A selected and its reply consumed, with every
send and edit succeeding, the call does not return nil: it stays blocked. -/
theorem Execute_one_backend_does_not_return :
    (Execute [backendA] sampleService goodBot sampleArgs [backendA]).final.consumed = 1 ∧
    (Execute [backendA] sampleService goodBot sampleArgs [backendA]).outcome ≠
      Outcome.returned none ∧
    (Execute [backendA] sampleService goodBot sampleArgs [backendA]).outcome = Outcome.blocked := by
  decide

end Paczkobot
